import Mathlib

set_option maxRecDepth 16384

namespace TinyDeno

/-! Shallow embedding of the dynamic-table and query core of the tiny-deno
repository (src/db/graphql-util.ts, src/implementations/sqlite/*, the
GQLTable surface generator and the HelpfulTinyDb schema reflection).
Record values are restricted to the domain the verified claims exercise:
null, integers, and integer arrays. -/

/-- JS runtime values held by record fields (restricted domain). -/
inductive Val where
  | vnull : Val
  | vint (n : Int) : Val
  | varr (xs : List Int) : Val
deriving DecidableEq, Repr

/-- SQLite storage values: NULL, INTEGER, or TEXT. -/
inductive SVal where
  | snull : SVal
  | sint (n : Int) : SVal
  | stext (s : String) : SVal
deriving DecidableEq, Repr

open Val SVal

deriving instance DecidableEq for Except

/-- JSON.stringify for a list of integers, as produced when the table
encoder serializes an array value. -/
def jsonOfList (xs : List Int) : String :=
  "[" ++ String.intercalate "," (xs.map toString) ++ "]"

/-- Per-value encoding rule of SQLiteDynTable (method encode): scalar values
and null pass through unchanged, everything else is JSON.stringify-ed. -/
def encodeVal : Val → SVal
  | vnull => snull
  | vint n => sint n
  | varr xs => stext (jsonOfList xs)

/-- A single-operator query expression object (common/types.ts
QueryExpression, src evaluators in db/graphql-util.ts).  Operands are
restricted to integers, null, and integer lists. -/
inductive QueryExpr where
  | eq (v : Option Int)
  | ne (v : Option Int)
  | gt (n : Int)
  | lt (n : Int)
  | gte (n : Int)
  | lte (n : Int)
  | inL (xs : List Int)
  | ninL (xs : List Int)
  | notE (e : QueryExpr)
  | allL (xs : List Int)
  | noneL (xs : List Int)
deriving DecidableEq, Repr

/-- The value attached to a field name inside a Query object: either a bare
literal (implicit equality) or an expression object. -/
inductive FieldCond where
  | lit (n : Int)
  | expr (e : QueryExpr)
deriving DecidableEq, Repr

mutual
/-- A Query object: an ordered list of its entries (JS object iteration
order). -/
inductive Query where
  | mk (entries : List QueryEntry)
/-- One entry of a Query object: a logical key over sub-queries, or a field
name with its condition. -/
inductive QueryEntry where
  | qor (qs : List Query)
  | qand (qs : List Query)
  | qnor (qs : List Query)
  | cond (fld : String) (c : FieldCond)
end

/-- View of an Option Int operand as a JS value (null or number). -/
def valOfOpt : Option Int → Val
  | none => vnull
  | some n => vint n

/-- Numeric view used by the ordered comparisons of resolveExpr: the source
first replaces an array by its length, and JS coerces null to 0. -/
def jsNumOf : Val → Int
  | vnull => 0
  | vint n => n
  | varr xs => xs.length

/-- In-memory evaluator for a single expression object (resolveExpr in
db/graphql-util.ts).  The result none models a thrown TypeError: the
source case for a scalar value under a nin key reads query.in, which is
undefined on a nin expression object, and dereferences it.  Note that the
ordered comparisons place the query operand on the LEFT of the comparison
exactly as the source does, and that the array cases reproduce the JS
truthiness of Boolean(find(..)) and !find(..), under which a found
element 0 counts as no find. -/
def resolveExpr : QueryExpr → Val → Option Bool
  | .eq v, value => some (decide (valOfOpt v = value))
  | .ne v, value => some (!decide (valOfOpt v = value))
  | .gt n, value => some (decide (n > jsNumOf value))
  | .lt n, value => some (decide (n < jsNumOf value))
  | .gte n, value => some (decide (n ≥ jsNumOf value))
  | .lte n, value => some (decide (n ≤ jsNumOf value))
  | .inL xs, varr vs =>
      some (match vs.find? (fun v => xs.contains v) with
            | some v => decide (v ≠ 0)
            | none => false)
  | .inL xs, vint n => some (xs.contains n)
  | .inL _, vnull => some false
  | .ninL xs, varr vs =>
      some (match vs.find? (fun v => !xs.contains v) with
            | some v => decide (v ≠ 0)
            | none => false)
  | .ninL _, vint _ => none
  | .ninL _, vnull => none
  | .notE e, value => (resolveExpr e value).map (fun b => !b)
  | .allL xs, varr vs =>
      some (match vs.find? (fun v => !xs.contains v) with
            | some v => decide (v = 0)
            | none => true)
  | .allL _, _ => some false
  | .noneL xs, varr vs =>
      some (match vs.find? (fun v => xs.contains v) with
            | some v => decide (v = 0)
            | none => true)
  | .noneL _, _ => some false

mutual
/-- In-memory evaluator for a whole Query (resolveQuery in
db/graphql-util.ts): every entry must pass. -/
def resolveQuery : Query → (String → Val) → Option Bool
  | .mk entries, r => resolveEntries entries r

/-- Entry loop of resolveQuery: returns false at the first failing entry,
true when all entries passed, and propagates a crash. -/
def resolveEntries : List QueryEntry → (String → Val) → Option Bool
  | [], _ => some true
  | e :: es, r =>
      match resolveEntry e r with
      | none => none
      | some false => some false
      | some true => resolveEntries es r

/-- One entry of resolveQuery: the logical keys run their sub-query lists
with the shortcut semantics of the source loops, a field entry compares a
literal with isEqual or delegates to resolveExpr. -/
def resolveEntry : QueryEntry → (String → Val) → Option Bool
  | .qor qs, r => resolveAny qs r
  | .qand qs, r => resolveAll qs r
  | .qnor qs, r =>
      match resolveAny qs r with
      | none => none
      | some b => some (!b)
  | .cond fld (.lit n), r => some (decide (vint n = r fld))
  | .cond fld (.expr e), r => resolveExpr e (r fld)

/-- Disjunction loop: stops at the first sub-query that resolves true. -/
def resolveAny : List Query → (String → Val) → Option Bool
  | [], _ => some false
  | q :: qs, r =>
      match resolveQuery q r with
      | none => none
      | some true => some true
      | some false => resolveAny qs r

/-- Conjunction loop: stops at the first sub-query that resolves false. -/
def resolveAll : List Query → (String → Val) → Option Bool
  | [], _ => some true
  | q :: qs, r =>
      match resolveQuery q r with
      | none => none
      | some false => some false
      | some true => resolveAll qs r
end

/-- Error kinds raised by the embedded operations: MalformedError from the
query compiler, and SQLite statement errors. -/
inductive Err where
  | malformed (msg : String)
  | sqlErr (msg : String)
deriving DecidableEq, Repr

/-- JS word-character class of the regexes used in the source. -/
def wordChar (c : Char) : Bool := c.isAlphanum || c = '_'

/-- Whether the first character of a string is the given one. -/
def headIs (s : String) (c : Char) : Bool :=
  match s.toList with
  | [] => false
  | c2 :: _ => c2 = c

/-- Lexicographic order on character lists by code point. -/
def strLtAux : List Char → List Char → Bool
  | [], [] => false
  | [], _ :: _ => true
  | _ :: _, [] => false
  | a :: as, b :: bs =>
      if a.toNat < b.toNat then true
      else if b.toNat < a.toNat then false
      else strLtAux as bs

/-- Binary-collation string order used by the SQLite comparisons. -/
def strLt (a b : String) : Bool := strLtAux a.toList b.toList

/-- Field-name guard of compileExpr: an optional leading dollar, then one or
more word characters. -/
def fieldOk (s : String) : Bool :=
  let u := if headIs s '$' then s.drop 1 else s
  u ≠ "" && u.toList.all wordChar

/-- Comparison operators that compileExpr can emit. -/
inductive SqlOp where
  | oeq | one | ogt | olt | ogte | olte
deriving DecidableEq, Repr

/-- Rendered text of a comparison operator. -/
def opText : SqlOp → String
  | .oeq => "=" | .one => "!=" | .ogt => ">" | .olt => "<" | .ogte => ">=" | .olte => "<="

/-- Abstract form of one emitted SQL statement; renderPred gives the exact
text the source builds by string interpolation. -/
inductive SqlPred where
  | cmp (col : String) (op : SqlOp) (idx : Nat)
  | isCmp (col : String) (idx : Nat)
  | isNotCmp (col : String) (idx : Nat)
  | likeCmp (col : String) (idx : Nat)
  | notLikeCmp (col : String) (idx : Nat)
  | notP (p : SqlPred)
  | raw (s : String)
deriving DecidableEq, Repr

/-- Exact SQL text of a predicate node, matching the template literals of
compileExpr. -/
def renderPred : SqlPred → String
  | .cmp col op idx => col ++ " " ++ opText op ++ " $" ++ toString idx
  | .isCmp col idx => col ++ " is $" ++ toString idx
  | .isNotCmp col idx => col ++ " is not $" ++ toString idx
  | .likeCmp col idx => col ++ " LIKE $" ++ toString idx ++ " ESCAPE \x27@\x27"
  | .notLikeCmp col idx => col ++ " NOT LIKE $" ++ toString idx ++ " ESCAPE \x27@\x27"
  | .notP p => "NOT (" ++ renderPred p ++ ")"
  | .raw s => s

/-- vars.push of the source: appends and returns the one-based index used in
the emitted placeholder. -/
def pushVar (vars : List SVal) (v : SVal) : Nat × List SVal :=
  (vars.length + 1, vars ++ [v])

/-- Binding of a null-or-integer operand. -/
def bindOpt : Option Int → SVal
  | none => snull
  | some n => sint n

/-- JS String(list): elements joined with commas. -/
def jsListString (xs : List Int) : String :=
  String.intercalate "," (xs.map toString)

/-- The replace call of the in and nin compile cases.  The regex has no
capture group, so the replacement text dollar-one is literal: every
percent, underscore or at-sign becomes the three characters at, dollar,
one. -/
def escapeLikeChars (s : String) : String :=
  String.mk (s.toList.flatMap (fun c =>
    if c = '%' || c = '_' || c = '@' then "@$1".toList else [c]))

/-- Expression-object cases of compileExpr (the single-operator switch).
The nested not case hands the literal key text as the field of the
recursive call, exactly as the source does, so the inner comparison
targets a column named dollar-not; the recursive source call re-checks the
field guard on that text, which always passes. -/
def compileExprE (field : String) (e : QueryExpr) (vars : List SVal) :
    Except Err (SqlPred × List SVal) :=
  match e with
    | .eq v =>
        let (idx, vars) := pushVar vars (bindOpt v)
        .ok (if v = none then .isCmp field idx else .cmp field .oeq idx, vars)
    | .ne v =>
        let (idx, vars) := pushVar vars (bindOpt v)
        .ok (if v = none then .isNotCmp field idx else .cmp field .one idx, vars)
    | .gt n =>
        let (idx, vars) := pushVar vars (sint n)
        .ok (.cmp field .ogt idx, vars)
    | .lt n =>
        let (idx, vars) := pushVar vars (sint n)
        .ok (.cmp field .olt idx, vars)
    | .gte n =>
        let (idx, vars) := pushVar vars (sint n)
        .ok (.cmp field .ogte idx, vars)
    | .lte n =>
        let (idx, vars) := pushVar vars (sint n)
        .ok (.cmp field .olte idx, vars)
    | .inL xs =>
        let (idx, vars) := pushVar vars (stext ("%" ++ escapeLikeChars (jsListString xs) ++ "%"))
        .ok (.likeCmp field idx, vars)
    | .ninL xs =>
        let (idx, vars) := pushVar vars (stext ("%" ++ escapeLikeChars (jsListString xs) ++ "%"))
        .ok (.notLikeCmp field idx, vars)
    | .notE e2 =>
        (compileExprE "$not" e2 vars).map (fun pv => (.notP pv.1, pv.2))
    | .allL _ => .error (.malformed "Cannot compile $all to SQL Query")
    | .noneL _ => .error (.malformed "Cannot compile $none to SQL Query")

/-- SQL compiler for one field condition (compileExpr in
db/graphql-util.ts): field-name guard, then the bare-literal case or the
expression-object switch; returns the predicate tree whose rendering is
the emitted text, plus the updated parameter list. -/
def compileExprAst (field : String) (c : FieldCond) (vars : List SVal) :
    Except Err (SqlPred × List SVal) :=
  if ¬ fieldOk field then
    .error (.malformed ("Field (\"" ++ field ++ "\") is not a valid field! Must be [a-zA-Z0-9_]+ only!"))
  else
    match c with
    | .lit n =>
        let (idx, vars) := pushVar vars (sint n)
        .ok (.cmp field .oeq idx, vars)
    | .expr e => compileExprE field e vars

/-- Garbage text produced when a template literal stringifies the object a
recursive compileQuery call returns (the or, and and nor cases, marked
with a todo-fix comment in the source): every sub-query prints as the text
[object Object], and its parameters are dropped. -/
def objObjText (n : Nat) (sep : String) : String :=
  String.intercalate sep (List.replicate n "([object Object])")

/-- Entry loop of compileQuery: one statement per entry, parameters threaded
left to right.  Field statements from compileExpr are never the empty
string on the conditions representable here, so the emptiness guard of the
source always pushes. -/
def compileEntriesAst : List QueryEntry → List SVal →
    Except Err (List SqlPred × List SVal)
  | [], vars => .ok ([], vars)
  | .qor qs :: es, vars =>
      (compileEntriesAst es vars).map (fun pv => (.raw (objObjText qs.length " OR ") :: pv.1, pv.2))
  | .qand qs :: es, vars =>
      (compileEntriesAst es vars).map (fun pv => (.raw (objObjText qs.length " AND ") :: pv.1, pv.2))
  | .qnor qs :: es, vars =>
      (compileEntriesAst es vars).map
        (fun pv => (.raw ("NOT (" ++ objObjText qs.length " OR " ++ ")") :: pv.1, pv.2))
  | .cond fld c :: es, vars => do
      let (p, vars2) ← compileExprAst fld c vars
      let (ps, vars3) ← compileEntriesAst es vars2
      .ok (p :: ps, vars3)

/-- SQL compiler for a whole Query (compileQuery in db/graphql-util.ts),
in abstract form. -/
def compileQueryAst : Query → Except Err (List SqlPred × List SVal)
  | .mk entries => compileEntriesAst entries []

/-- Final text of compileQuery: every statement parenthesized, joined with
AND. -/
def renderStatements (ps : List SqlPred) : String :=
  String.intercalate " AND " (ps.map (fun p => "(" ++ renderPred p ++ ")"))

/-- compileQuery as the source exposes it: the SQL text and the ordered
parameters. -/
def compileQuery (q : Query) : Except Err (String × List SVal) :=
  (compileQueryAst q).map (fun pv => (renderStatements pv.1, pv.2))

/-- Three-valued SQL comparison of two storage values: NULL propagates, the
same storage class compares directly, and across classes INTEGER orders
before TEXT (SQLite comparison rules). -/
def sqlCompare : SqlOp → SVal → SVal → Option Bool
  | _, snull, _ => none
  | _, _, snull => none
  | op, sint a, sint b => some (match op with
      | .oeq => decide (a = b) | .one => decide (a ≠ b)
      | .ogt => decide (a > b) | .olt => decide (a < b)
      | .ogte => decide (a ≥ b) | .olte => decide (a ≤ b))
  | op, stext a, stext b => some (match op with
      | .oeq => decide (a = b) | .one => decide (a ≠ b)
      | .ogt => strLt b a | .olt => strLt a b
      | .ogte => !strLt a b | .olte => !strLt b a)
  | op, sint _, stext _ => some (match op with
      | .oeq => false | .one => true
      | .ogt => false | .olt => true | .ogte => false | .olte => true)
  | op, stext _, sint _ => some (match op with
      | .oeq => false | .one => true
      | .ogt => true | .olt => false | .ogte => true | .olte => false)

/-- SQLite LIKE pattern match with ESCAPE at-sign, ASCII case folded.  The
behavior of a trailing escape character is approximated as no match; no
verified claim exercises it. -/
def likeChars : List Char → List Char → Bool
  | [], [] => true
  | [], _ :: _ => false
  | '%' :: ps, ts =>
      likeChars ps ts ||
      (match ts with
       | [] => false
       | _ :: ts2 => likeChars ('%' :: ps) ts2)
  | '_' :: ps, _ :: ts => likeChars ps ts
  | '_' :: _, [] => false
  | '@' :: c :: ps, t :: ts => (c.toLower = t.toLower) && likeChars ps ts
  | '@' :: _ :: _, [] => false
  | ['@'], _ => false
  | c :: ps, t :: ts => (c.toLower = t.toLower) && likeChars ps ts
  | _ :: _, [] => false
termination_by p t => p.length + t.length

/-- LIKE converts its operands to text; NULL stays NULL. -/
def toTextForLike : SVal → Option String
  | snull => none
  | sint n => some (toString n)
  | stext s => some s

/-- A stored table row: column name to storage value, in column order. -/
abbrev Row := List (String × SVal)

/-- Assoc-list lookup by key. -/
def lookupA (k : String) : List (String × α) → Option α
  | [] => none
  | (k2, v) :: rest => if k2 = k then some v else lookupA k rest

/-- Value of a column reference in a compiled predicate.  A reference
beginning with a dollar is lexed by SQLite as a parameter rather than a
column and is treated as a statement error here, as the bindings the table
code supplies never cover it; an unknown column is a prepare error. -/
def colVal (row : Row) (col : String) : Except Err SVal :=
  if headIs col '$' then
    .error (.sqlErr ("parameter in column position: " ++ col))
  else match lookupA col row with
    | some v => .ok v
    | none => .error (.sqlErr ("no such column: " ++ col))

/-- Value bound to a one-based placeholder. -/
def paramVal (params : List SVal) (idx : Nat) : Except Err SVal :=
  match params[idx - 1]? with
  | some v => .ok v
  | none => .error (.sqlErr ("no such parameter: $" ++ toString idx))

/-- SQL NOT over three-valued logic. -/
def not3 : Option Bool → Option Bool
  | none => none
  | some b => some (!b)

/-- SQL AND over three-valued logic. -/
def and3 : Option Bool → Option Bool → Option Bool
  | some false, _ => some false
  | _, some false => some false
  | some true, some true => some true
  | _, _ => none

/-- Three-valued evaluation of one compiled predicate against a stored row
and its bound parameters.  Raw statement text, produced only by the broken
logical-operator compilation, cannot be prepared. -/
def evalPred (row : Row) (params : List SVal) : SqlPred → Except Err (Option Bool)
  | .cmp col op idx => do
      let v ← colVal row col
      let p ← paramVal params idx
      .ok (sqlCompare op v p)
  | .isCmp col idx => do
      let v ← colVal row col
      let p ← paramVal params idx
      .ok (some (decide (v = p)))
  | .isNotCmp col idx => do
      let v ← colVal row col
      let p ← paramVal params idx
      .ok (some (!decide (v = p)))
  | .likeCmp col idx => do
      let v ← colVal row col
      let p ← paramVal params idx
      .ok (match toTextForLike v, toTextForLike p with
           | some t, some pat => some (likeChars pat.toList t.toList)
           | _, _ => none)
  | .notLikeCmp col idx => do
      let v ← colVal row col
      let p ← paramVal params idx
      .ok (match toTextForLike v, toTextForLike p with
           | some t, some pat => some (!likeChars pat.toList t.toList)
           | _, _ => none)
  | .notP p => (evalPred row params p).map not3
  | .raw s => .error (.sqlErr ("cannot prepare statement text: " ++ s))

/-- Conjunction of the compiled statements, three-valued. -/
def evalConj (row : Row) (params : List SVal) : List SqlPred → Except Err (Option Bool)
  | [] => .ok (some true)
  | p :: ps => do
      let b1 ← evalPred row params p
      let b2 ← evalConj row params ps
      .ok (and3 b1 b2)

/-- Whether a stored row satisfies the compiled statements under their bound
parameters: a WHERE clause keeps a row only when the predicate evaluates
to true. -/
def matchesRow (ps : List SqlPred) (row : Row) (params : List SVal) : Except Err Bool :=
  (evalConj row params ps).map (fun b => decide (b = some true))

/-- End-to-end SQL evaluation of a query against one stored row: compile,
then test the row against the compiled predicate and parameters. -/
def sqlEvalCompiled (q : Query) (row : Row) : Except Err Bool := do
  let pv ← compileQueryAst q
  matchesRow pv.1 row pv.2

/-- Stored form of an in-memory record over the given columns, per the
table encoder. -/
def storedRowOf (cols : List String) (r : String → Val) : Row :=
  cols.map (fun c => (c, encodeVal (r c)))

/-- Column value types of the dynamic table store. -/
inductive ColumnType where
  | Boolean | String | Int | Float | ID | Date | JSON
deriving DecidableEq, Repr

/-- A column definition: value type, nullability, optional meta
annotation. -/
structure ColumnDef where
  type : ColumnType
  nullable : Bool
  meta : Option String := none
deriving DecidableEq, Repr

/-- The columns object of a schema, in JS key insertion order. -/
abbrev Columns := List (String × ColumnDef)

/-- A declared index. -/
structure IndexDef where
  fields : List String
  unique : Option Bool := none
deriving DecidableEq, Repr

/-- A table schema as passed to and returned by the store. -/
structure TableSchema where
  name : Option String := none
  columns : Columns
  indexes : List IndexDef
  version : Option Nat := none
deriving DecidableEq, Repr

/-- A persisted catalog row of the schema table. -/
structure CatRow where
  name : String
  columns : Columns
  indexes : List IndexDef
  version : Nat
deriving DecidableEq, Repr

/-- A physical SQLite table: column order plus rows as positional value
lists. -/
structure PhysTable where
  cols : List String
  rows : List (List SVal)
deriving DecidableEq, Repr

/-- The store state: catalog plus physical tables keyed by prefixed name.
Constraint enforcement (PRIMARY KEY, NOT NULL, UNIQUE indexes) is not
modeled; no verified claim depends on it. -/
structure StoreState where
  catalog : List CatRow
  tables : List (String × PhysTable)
deriving DecidableEq, Repr

/-- JS object assignment obj[k] = v: replaces in place when the key is
present, appends otherwise. -/
def setA (l : List (String × α)) (k : String) (v : α) : List (String × α) :=
  match l with
  | [] => [(k, v)]
  | (k2, v2) :: rest =>
      if k2 = k then (k, v) :: rest else (k2, v2) :: setA rest k v

/-- The id column definition create injects (meta tag with bang). -/
def idColCreate : ColumnDef := ⟨.ID, false, some "ID!"⟩

/-- The id column definition redefine injects (meta tag without bang). -/
def idColRedefine : ColumnDef := ⟨.ID, false, some "ID"⟩

/-- In-place id injection done by create before persisting; the caller
holds the same mutated schema object afterwards. -/
def injectIdCreate (s : TableSchema) : TableSchema :=
  { s with columns := setA s.columns "id" idColCreate }

/-- In-place id injection done by redefine when the table already
exists. -/
def injectIdRedefine (s : TableSchema) : TableSchema :=
  { s with columns := setA s.columns "id" idColRedefine }

/-- Physical table name: the store prefix and the table name joined by the
separator. -/
def physName (pfx table : String) : String := pfx ++ "_" ++ table

/-- Catalog row of a table, if any. -/
def catalogFind (st : StoreState) (table : String) : Option CatRow :=
  st.catalog.find? (fun c => c.name = table)

/-- Lodash isEqual on two columns objects: plain-object comparison ignores
key order, so both key sets are compared pointwise. -/
def columnsEqual (a b : Columns) : Bool :=
  (a.map Prod.fst).all (fun k => lookupA k a = lookupA k b) &&
  (b.map Prod.fst).all (fun k => lookupA k a = lookupA k b)

/-- SQLiteDynTableStore.create: inject the id column into the caller
schema, insert the catalog row (version defaults to 0), and create the
physical table with one column per schema column in key order.  The
source issues the catalog insert before the DDL; only the fresh-table
path matters to the claims, so a name clash on either side is a plain
error here.  The mutated schema is returned to model the in-place update
of the caller object. -/
def create (pfx : String) (st : StoreState) (table : String) (schema : TableSchema) :
    Except Err (StoreState × TableSchema) :=
  let schema := injectIdCreate schema
  if (catalogFind st table).isSome then
    .error (.sqlErr ("UNIQUE constraint failed: name = " ++ table))
  else if (lookupA (physName pfx table) st.tables).isSome then
    .error (.sqlErr ("table already exists: " ++ physName pfx table))
  else
    .ok ({ catalog := st.catalog ++ [⟨table, schema.columns, schema.indexes, 0⟩],
           tables := st.tables ++ [(physName pfx table, ⟨schema.columns.map Prod.fst, []⟩)] },
         schema)

/-- SQLiteDynTableStore.define: read the catalog row back.  The JSON
round-trip of columns and indexes is the identity on this data model. -/
def define (st : StoreState) (table : String) : Option TableSchema :=
  (catalogFind st table).map (fun c =>
    { name := some c.name, columns := c.columns, indexes := c.indexes,
      version := some c.version })

/-- SQLiteDynTableStore.redefine: delegate to create when the table does not
exist; otherwise inject the id column (with the meta tag ID, unlike
create), return with no effect when columns and indexes compare equal to
the persisted ones, else migrate inside a transaction: build the shadow
table from the new columns, copy with INSERT INTO shadow (common columns)
SELECT * FROM live - the SELECT star supplies one value per OLD column,
so SQLite rejects the statement when the counts differ - then drop,
rename, and update the catalog row with version + 1.  With no shared
column the copy is skipped (a console warning in the source) and the
migrated table is empty.  An error models the transaction rollback: the
live table and catalog stay in their pre-migration state. -/
def redefine (pfx : String) (st : StoreState) (table : String) (schema : TableSchema) :
    Except Err (StoreState × TableSchema) :=
  match define st table with
  | none => create pfx st table schema
  | some old =>
    let schema := injectIdRedefine schema
    if columnsEqual old.columns schema.columns && old.indexes = schema.indexes then
      .ok (st, schema)
    else
      let tbl := physName pfx table
      let version := (old.version.getD 0) + 1
      match lookupA tbl st.tables with
      | none => .error (.sqlErr ("no such table: " ++ tbl))
      | some phys =>
        let shadowCols := schema.columns.map Prod.fst
        let common := (old.columns.map Prod.fst).filter (fun c => shadowCols.contains c)
        if common ≠ [] ∧ phys.cols.length ≠ common.length then
          .error (.sqlErr (toString phys.cols.length ++ " values for " ++
            toString common.length ++ " columns"))
        else
          let rows2 := if common = [] then ([] : List (List SVal))
            else phys.rows.map (fun vals =>
              shadowCols.map (fun c =>
                match common.findIdx? (fun k => k = c) with
                | some i => vals.getD i snull
                | none => snull))
          .ok ({ catalog := st.catalog.map (fun c =>
                   if c.name = table then ⟨table, schema.columns, schema.indexes, version⟩ else c),
                 tables := st.tables.map (fun t =>
                   if t.1 = tbl then (tbl, ⟨shadowCols, rows2⟩) else t) },
               schema)

/-- SQLiteDynTable value encoder (private method encode): keys absent from
the schema columns are skipped, scalars and null pass through, other
values are JSON serialized. -/
def encodeRec (cols : Columns) (value : List (String × Val)) : List (String × SVal) :=
  (value.filter (fun kv => (lookupA kv.1 cols).isSome)).map
    (fun kv => (kv.1, encodeVal kv.2))

/-- Application of an UPDATE SET list to one row. -/
def setRowCols (row : Row) (kvs : List (String × SVal)) : Row :=
  kvs.foldl (fun r kv => setA r kv.1 kv.2) row

/-- One runtime batch operation: a type tag, the target key, and for put
the partial value object. -/
structure BatchOp where
  type : String
  key : String
  value : List (String × Val) := []
deriving DecidableEq, Repr

/-- The id cell of a stored row; generated ids are stored as TEXT. -/
def rowIdVal (row : Row) : Option SVal := lookupA "id" row

/-- One loop step of SQLiteDynTable.batch: a put tag builds UPDATE SET from
the encoded value (an empty encoding yields an empty SET clause, which
SQLite rejects at prepare time), a del tag deletes by id, and any other
tag falls through to continue. -/
def batchStep (cols : Columns) (rows : List Row) (op : BatchOp) : Except Err (List Row) :=
  if op.type = "put" then
    let encoded := encodeRec cols op.value
    if encoded = [] then .error (.sqlErr "incomplete input: empty SET clause")
    else .ok (rows.map (fun row =>
      if rowIdVal row = some (stext op.key) then setRowCols row encoded else row))
  else if op.type = "del" then
    .ok (rows.filter (fun row => rowIdVal row ≠ some (stext op.key)))
  else .ok rows

/-- SQLiteDynTable.batch: an empty list returns immediately; otherwise the
operations run inside one transaction in list order.  An error result
models the transaction rollback: the table keeps its pre-batch rows. -/
def batch (cols : Columns) (rows : List Row) (ops : List BatchOp) : Except Err (List Row) :=
  if ops = [] then .ok rows
  else ops.foldlM (batchStep cols) rows

/-- Claim-level reading of one batch operation: put and del apply their
record-level effect in place, any other kind is skipped. -/
def specStep (cols : Columns) (rows : List Row) (op : BatchOp) : List Row :=
  if op.type = "put" then
    rows.map (fun row =>
      if rowIdVal row = some (stext op.key) then setRowCols row (encodeRec cols op.value)
      else row)
  else if op.type = "del" then
    rows.filter (fun row => rowIdVal row ≠ some (stext op.key))
  else rows

/-- The SearchOptions fields the SQLite table search reads. -/
structure SearchOptions where
  skip : Option Int := none
  limit : Option Int := none
  query : Option Query := none
  sort : Option String := none
  projection : Option (List String) := none

/-- Worker of splitWs: walks the characters, collecting the current token in
reverse. -/
def splitWsAux : List Char → List Char → List String
  | [], cur => if cur = [] then [] else [String.mk cur.reverse]
  | c :: cs, cur =>
      if c.isWhitespace then
        (if cur = [] then [] else [String.mk cur.reverse]) ++ splitWsAux cs []
      else splitWsAux cs (c :: cur)

/-- Whitespace-run split combined with the truthiness filter of the source:
the list of nonempty tokens. -/
def splitWs (s : String) : List String := splitWsAux s.toList []

/-- The sort-token regex: an optional single plus or minus sign, then one or
more word characters. -/
def sortTokOk (t : String) : Bool :=
  let u := if headIs t '-' || headIs t '+' then t.drop 1 else t
  u ≠ "" && u.toList.all wordChar

/-- Mapping of one kept sort token to its ORDER BY fragment: minus becomes
DESC, plus becomes ASC, a bare token stays as is. -/
def mapTok (t : String) : String :=
  if headIs t '-' then t.drop 1 ++ " DESC"
  else if headIs t '+' then t.drop 1 ++ " ASC"
  else t

/-- JS truthiness of an optional numeric option: present and nonzero. -/
def truthyNum : Option Int → Bool
  | none => false
  | some n => n ≠ 0

/-- The projection fragment: the comma join of the projection when truthy,
otherwise the star. -/
def projOf : Option (List String) → String
  | some ps => if String.intercalate "," ps = "" then "*" else String.intercalate "," ps
  | none => "*"

/-- The sort step of search: a truthy sort string is split on whitespace,
tokens failing the token regex are dropped by the filter, the kept tokens
map to their ORDER BY fragments, and a nonempty result is appended. -/
def applySort (stmt : String) (sort : Option String) : String :=
  match sort with
  | none => stmt
  | some s =>
    if s = "" then stmt
    else
      let toks := ((splitWs s).filter sortTokOk).map mapTok
      if toks = [] then stmt else stmt ++ " ORDER BY " ++ String.intercalate ", " toks

/-- The limit step of search: a truthy limit appends a LIMIT placeholder
and pushes the value. -/
def applyLimit (sp : String × List SVal) (limit : Option Int) : String × List SVal :=
  if truthyNum limit then
    (sp.1 ++ " LIMIT $" ++ toString (sp.2.length + 1), sp.2 ++ [sint (limit.getD 0)])
  else sp

/-- The skip step of search: a truthy skip appends the LIMIT -1 fallback
(with the missing leading space reproduced verbatim) and an OFFSET
placeholder, pushing the value. -/
def applySkip (sp : String × List SVal) (limit skip : Option Int) : String × List SVal :=
  if truthyNum skip then
    (sp.1 ++ (if ¬ truthyNum limit then "LIMIT -1" else "") ++ " OFFSET $" ++
      toString (sp.2.length + 1), sp.2 ++ [sint (skip.getD 0)])
  else sp

/-- Statement construction of SQLiteDynTable.search: SELECT projection,
optional WHERE from the compiled query, then the sort, limit and skip
steps.  Execution against the client is not modeled. -/
def searchStmt (name : String) (o : SearchOptions) : Except Err (String × List SVal) := do
  let qp ← match o.query with
    | some qq => compileQuery qq
    | none => pure ("", ([] : List SVal))
  let stmt := "SELECT " ++ projOf o.projection ++ " FROM \"" ++ name ++ "\""
  let stmt := if qp.1 = "" then stmt else stmt ++ " WHERE " ++ qp.1
  let stmt := applySort stmt o.sort
  .ok (applySkip (applyLimit (stmt, qp.2) o.limit) o.limit o.skip)

/-- Reserved type names: the five core scalars, then the base schema names,
in source order. -/
def reservedTypeNames : List String :=
  ["Boolean", "String", "Int", "Float", "ID", "Date", "JSON", "Void", "Operation", "SearchOptions"]

/-- A field of a generated table type: name and printed type annotation. -/
structure GQLSchemaField where
  key : String
  type : String
deriving DecidableEq, Repr

/-- The annotation with list and non-null wrappers stripped: the replace
regex removing bang and bracket characters. -/
def stripWrap (t : String) : String :=
  String.mk (t.toList.filter (fun c => c ≠ '!' && c ≠ '[' && c ≠ ']'))

/-- Whether an annotation denotes a core scalar or reserved name. -/
def isReservedAnnotation (t : String) : Bool :=
  reservedTypeNames.contains (stripWrap t)

/-- JS Array.join. -/
def joinSep (sep : String) : List String → String
  | [] => ""
  | [x] => x
  | x :: xs => x ++ sep ++ joinSep sep xs

/-- One field entry of the object type: a reserved annotation prints as is,
any other annotation additionally exposes the raw-identifier companion on
a second line. -/
def renderObjField (f : GQLSchemaField) : String :=
  if isReservedAnnotation f.type then f.key ++ ": " ++ f.type
  else f.key ++ ": " ++ f.type ++ "\n  " ++ f.key ++ "ID: ID"

/-- GQLTable.schema: the generated object type. -/
def objectSchema (name : String) (fields : List GQLSchemaField) : String :=
  "type " ++ name ++ " \x7b\n  " ++ joinSep "\n  " (fields.map renderObjField) ++ "\n\x7d"

/-- One field line of the input type: reference annotations are replaced by
the raw ID type. -/
def renderInputField (f : GQLSchemaField) : String :=
  f.key ++ ": " ++ (if isReservedAnnotation f.type then f.type else "ID")

/-- GQLTable.inputSchema: the generated input type, id excluded. -/
def inputSchema (name : String) (fields : List GQLSchemaField) : String :=
  "input " ++ name ++ "Input \x7b\n  " ++
    joinSep "\n  " ((fields.filter (fun f => f.key ≠ "id")).map renderInputField) ++ "\n\x7d"

/-- GQLTable.lname: first character lowercased.  The source dereferences
character zero and would throw on an empty name; the empty case here maps
to the empty string. -/
def lowerFirst (name : String) : String :=
  match name.toList with
  | [] => ""
  | c :: cs => String.mk (c.toLower :: cs)

/-- GQLTable.queries: the two query operation declarations. -/
def queriesText (name : String) : String :=
  lowerFirst name ++ "s(search: SearchOptions): [" ++ name ++ "]!" ++
    "  " ++ lowerFirst name ++ "(id: ID!): " ++ name

/-- GQLTable.mutations: the four mutation operation declarations. -/
def mutationsText (name : String) : String :=
  "batch" ++ name ++ "(input: [" ++ name ++ "BatchInput]!): [" ++ name ++ "BatchReturn]!" ++
    "  add" ++ name ++ "(input: " ++ name ++ "Input!): " ++ name ++ "!" ++
    "  put" ++ name ++ "(id: ID!, input: " ++ name ++ "Input!): " ++ name ++ "!" ++
    "  del" ++ name ++ "(id: ID!): Void"

/-- A field parsed back from an externally authored type declaration. -/
structure ParsedGQLField where
  key : String
  type : String
  rawType : String
  nullable : Bool
deriving DecidableEq, Repr

/-- The ColumnType whose enum name equals the given raw type name (the
truthiness test on the enum member access). -/
def columnTypeOfName : String → Option ColumnType
  | "Boolean" => some .Boolean
  | "String" => some .String
  | "Int" => some .Int
  | "Float" => some .Float
  | "ID" => some .ID
  | "Date" => some .Date
  | "JSON" => some .JSON
  | _ => none

/-- Column built for one declared field by the registerSchema method of
HelpfulTinyDb: the reference flag is computed as membership in the
reserved names, the column type is the matching ColumnType when the raw
type is an enum name, otherwise ID when the flag is set and JSON when it
is not; nullability and the original annotation are carried over. -/
def registerColumn (f : ParsedGQLField) : ColumnDef :=
  let reference := reservedTypeNames.contains f.rawType
  { type := match columnTypeOfName f.rawType with
      | some t => t
      | none => if reference then .ID else .JSON,
    nullable := f.nullable,
    meta := some f.type }

/-- registerSchema column assignment over all declared fields. -/
def registerColumns (fields : List ParsedGQLField) : Columns :=
  fields.map (fun f => (f.key, registerColumn f))

/-! Sanity checks mirroring the Deno tests of the source file. -/

example : resolveExpr (.ne (some 3)) (vint 3) = some false := rfl
example : resolveExpr (.inL [0]) (varr [1, 1]) = some false := rfl
example : resolveExpr (.noneL [0]) (varr [1, 1]) = some true := rfl
example : resolveQuery (.mk []) (fun _ => vint 2) = some true := rfl
example :
    resolveQuery (.mk [.cond "value" (.lit 2),
      .qor [.mk [.cond "array" (.expr (.inL [1]))], .mk [.cond "array" (.expr (.allL [0]))]]])
      (fun k => if k = "value" then vint 2 else varr [1, 1]) = some true := rfl

/-! Fixtures shared by the concrete theorems below. -/

/-- The empty store. -/
def st0 : StoreState := ⟨[], []⟩

/-- Query used by the C1 check: field foo greater-than 5. -/
def qGt5 : Query := .mk [.cond "foo" (.expr (.gt 5))]

/-- Record used by the C1 check: every field holds the integer 1. -/
def recFoo1 : String → Val := fun _ => vint 1

/-- C1: the claim states that for queries over the comparison and logical
operators the compiled SQL predicate agrees with the in-memory evaluator
on every record.  The code violates this: on the query (foo gt 5) and the
record (foo = 1), the in-memory evaluator computes operand greater-than
value, so 5 gt 1, and answers true, while the compiled predicate
(foo > $1 with $1 bound to 5) evaluates the stored row to 1 gt 5, false.
This theorem evaluates both sides of the failing input. -/
theorem evaluators_disagree_on_gt :
    resolveQuery qGt5 recFoo1 = some true ∧
    compileQuery qGt5 = .ok ("(foo > $1)", [sint 5]) ∧
    storedRowOf ["foo"] recFoo1 = [("foo", sint 1)] ∧
    sqlEvalCompiled qGt5 [("foo", sint 1)] = .ok false :=
  ⟨rfl, by decide, rfl, by decide⟩

/-- C7: the claim states the in-memory array operators test membership of
the expression list inside the record array (all: every element of L in
A) and that nin on a scalar tests non-membership.  The code violates
this: all with L = [1, 2] against A = [1] answers true although 2 does
not appear in A (the code tests A inside L); nin on a scalar reads the
absent in key of the expression object and throws (modeled as none);
none with L = [0] against A = [0] answers true although 0 appears in A,
because the JS negation of find treats the found element 0 as falsy.
The scalar in cases behave as claimed. -/
theorem resolve_array_ops_diverge :
    resolveExpr (.allL [1, 2]) (varr [1]) = some true ∧
    resolveExpr (.ninL [1]) (vint 2) = none ∧
    resolveExpr (.noneL [0]) (varr [0]) = some true ∧
    resolveExpr (.inL [1, 2]) (vint 1) = some true ∧
    resolveExpr (.inL [1, 2]) (vint 3) = some false :=
  ⟨rfl, rfl, rfl, rfl, rfl⟩

/-- C6: the claim states a declared field whose type is not a recognized
scalar becomes an ID-typed reference column.  The code computes the
reference flag as membership in the reserved names, so a field of type
User gets a JSON column, while the degenerate reserved non-column name
Operation gets ID; scalar-by-name fields are mapped as claimed. -/
theorem register_schema_reference_becomes_json :
    registerColumn ⟨"owner", "User", "User", true⟩ = ⟨.JSON, true, some "User"⟩ ∧
    registerColumn ⟨"name", "String!", "String", false⟩ = ⟨.String, false, some "String!"⟩ ∧
    registerColumn ⟨"op", "Operation", "Operation", true⟩ = ⟨.ID, true, some "Operation"⟩ :=
  ⟨rfl, rfl, rfl⟩

/-- Schema with no caller columns, used by the C3 check. -/
def emptySchema : TableSchema := { columns := [], indexes := [] }

/-- C3: the claim states that redefining with a schema structurally
identical to the persisted one is a no-op, in particular right after
create.  The code violates this: create persists the injected id column
with the meta tag ID-bang while redefine injects the tag ID, so the
structural-equality check fails, a full migration runs, and the version
becomes 1 instead of staying 0. -/
theorem redefine_after_create_bumps_version :
    (do
      let r1 ← create "p" st0 "t" emptySchema
      pure ((define r1.1 "t").map TableSchema.version)) = Except.ok (some (some 0)) ∧
    (do
      let r1 ← create "p" st0 "t" emptySchema
      let r2 ← redefine "p" r1.1 "t" r1.2
      pure ((define r2.1 "t").map TableSchema.version)) = Except.ok (some (some 1)) :=
  ⟨by decide, by decide⟩

-- The logical operators compile to the stringified-object text, dropping
-- the sub-query parameters (supporting the C1 analysis).
example :
    compileQuery (.mk [.qor [.mk [.cond "a" (.lit 1)], .mk [.cond "b" (.lit 2)]]])
      = .ok ("(([object Object]) OR ([object Object]))", []) := by decide

-- A second redefine with the same schema object, after a first redefine
-- that found the table existing, is a no-op (version stays 1).
example :
    (do
      let r1 ← create "p" st0 "t" emptySchema
      let r2 ← redefine "p" r1.1 "t" r1.2
      let r3 ← redefine "p" r2.1 "t" r2.2
      pure ((define r3.1 "t").map TableSchema.version)) = Except.ok (some (some 1)) := by
  decide

/-- Persisted columns of the C2 table: x Int, y String, id. -/
def colsOldT : Columns :=
  [("x", ⟨.Int, false, some "Int!"⟩), ("y", ⟨.String, false, some "String!"⟩),
   ("id", idColCreate)]

/-- Store holding the C2 table with one row (x = 1, y = k, id = a). -/
def stT : StoreState :=
  ⟨[⟨"T", colsOldT, [], 0⟩],
   [("p_T", ⟨["x", "y", "id"], [[sint 1, stext "k", stext "a"]]⟩)]⟩

/-- The C2 redefinition target: x kept, y dropped, z Boolean added. -/
def newSchemaT : TableSchema :=
  { columns := [("x", ⟨.Int, false, some "Int!"⟩), ("z", ⟨.Boolean, true, some "Boolean"⟩)],
    indexes := [] }

/-- C2: the claim states a redefinition sharing at least one column keeps
the shared values, drops removed columns, defaults new columns, and bumps
the version by one.  The code violates this whenever a column is dropped:
the copy statement INSERT INTO shadow (x, id) SELECT * FROM live supplies
one value per OLD column (three) against two listed columns, so SQLite
rejects it, the transaction rolls back, and the table stays on the old
schema with the old version. -/
theorem redefine_drop_column_fails :
    redefine "p" stT "T" newSchemaT = .error (.sqlErr "3 values for 2 columns") := by decide

/-- C9 counterexample input: a sort string whose only token is rejected by
the token regex. -/
def optsBadSort : SearchOptions := { sort := some "$bad" }

/-- C9 counterexample: the claim states a sort token that is not a bare
identifier with an optional sign raises a Malformed error.  The code
instead drops the token silently: the built statement succeeds and has no
ORDER BY clause. -/
theorem search_bad_sort_token_no_error :
    searchStmt "tbl" optsBadSort = .ok ("SELECT * FROM \"tbl\"", []) := by decide

/-- A caller schema that already carries an id column, with the meta tag ID
instead of the canonical create tag. -/
def schemaOwnId : TableSchema :=
  { columns := [("id", ⟨.ID, false, some "ID"⟩)], indexes := [] }

/-- C4 counterexample: the claim states create-then-define returns a schema
structurally equal to S, injecting the id column only when the caller
omitted it.  For a caller schema that supplies its own id column (type
ID, non-nullable, meta ID) the returned columns carry the overwritten
canonical id definition with the meta tag ID-bang, which differs from the
caller column, so the returned schema is not structurally equal to S. -/
theorem create_define_overwrites_supplied_id :
    lookupA "id" schemaOwnId.columns = some ⟨.ID, false, some "ID"⟩ ∧
    (create "p" st0 "t" schemaOwnId).map (fun r => define r.1 "t")
      = .ok (some { name := some "t", columns := [("id", idColCreate)],
                    indexes := [], version := some 0 }) ∧
    ([("id", idColCreate)] : Columns) ≠ schemaOwnId.columns :=
  ⟨rfl, by decide, by decide⟩

/-! Helper lemmas. -/

theorem lookupA_setA_self (l : List (String × α)) (k : String) (v : α) :
    lookupA k (setA l k v) = some v := by
  induction l with
  | nil => simp [setA, lookupA]
  | cons hd tl ih =>
      obtain ⟨k2, v2⟩ := hd
      by_cases h : k2 = k
      · simp [setA, h, lookupA]
      · simp [setA, h, lookupA, ih]

/-- C10: create and redefine overwrite the id column of the caller schema
object in place before persisting; the returned schema of the model
stands for the mutated caller object.  Both write the fixed definition
(type ID, non-nullable), and they tag it differently: create writes the
meta tag ID-bang while redefine on an existing table writes ID. -/
theorem create_redefine_inject_id_meta :
    (∀ pfx st tbl S r, create pfx st tbl S = .ok r →
        lookupA "id" r.2.columns = some idColCreate) ∧
    (∀ pfx st tbl S r, (define st tbl).isSome = true →
        redefine pfx st tbl S = .ok r →
        lookupA "id" r.2.columns = some idColRedefine) ∧
    idColCreate ≠ idColRedefine := by
  refine ⟨?_, ?_, by decide⟩
  · intro pfx st tbl S r h
    simp only [create] at h
    split at h
    · exact absurd h (by simp)
    · split at h
      · exact absurd h (by simp)
      · injection h with h2
        rw [← h2]
        simp [injectIdCreate, lookupA_setA_self]
  · intro pfx st tbl S r hdef h
    obtain ⟨old, hold⟩ := Option.isSome_iff_exists.mp hdef
    simp only [redefine, hold] at h
    split at h
    · injection h with h2
      rw [← h2]
      simp [injectIdRedefine, lookupA_setA_self]
    · split at h
      · exact absurd h (by simp)
      · split at h
        · exact absurd h (by simp)
        · injection h with h2
          rw [← h2]
          simp [injectIdRedefine, lookupA_setA_self]

/-- The store and mutated schema produced by creating the empty schema. -/
def cr0 : StoreState × TableSchema :=
  (⟨[⟨"t", [("id", idColCreate)], [], 0⟩], [("p_t", ⟨["id"], []⟩)]⟩,
   { name := none, columns := [("id", idColCreate)], indexes := [], version := none })

/-- The store and mutated schema produced by then redefining with the same
caller schema. -/
def rd0 : StoreState × TableSchema :=
  (⟨[⟨"t", [("id", idColRedefine)], [], 1⟩], [("p_t", ⟨["id"], []⟩)]⟩,
   { name := none, columns := [("id", idColRedefine)], indexes := [], version := none })

theorem create_redefine_inject_id_meta_witness :
    lookupA "id" cr0.2.columns = some idColCreate ∧
    lookupA "id" rd0.2.columns = some idColRedefine :=
  ⟨create_redefine_inject_id_meta.1 "p" st0 "t" emptySchema cr0 (by decide),
   create_redefine_inject_id_meta.2.1 "p" cr0.1 "t" emptySchema rd0 (by decide) (by decide)⟩

/-- C4 amended: create followed by define returns the caller schema with
the id column unconditionally set to the fixed create definition
(overwriting a caller-supplied id column), the same indexes, the table
name filled in, and version 0. -/
theorem create_define_roundtrip (pfx : String) (st : StoreState) (tbl : String)
    (S : TableSchema)
    (h1 : catalogFind st tbl = none)
    (h2 : lookupA (physName pfx tbl) st.tables = none) :
    (create pfx st tbl S).map (fun r => define r.1 tbl)
      = .ok (some { name := some tbl, columns := setA S.columns "id" idColCreate,
                    indexes := S.indexes, version := some 0 }) := by
  simp only [create, h1, h2, Option.isSome_none, Bool.false_eq_true, if_false, Except.map,
    injectIdCreate]
  simp only [define, catalogFind] at h1 ⊢
  rw [List.find?_append, h1, Option.none_or]
  simp [List.find?]

theorem create_define_roundtrip_witness :
    (create "p" st0 "t" schemaOwnId).map (fun r => define r.1 "t")
      = .ok (some { name := some "t", columns := setA schemaOwnId.columns "id" idColCreate,
                    indexes := schemaOwnId.indexes, version := some 0 }) :=
  create_define_roundtrip "p" st0 "t" schemaOwnId rfl rfl

/-! Surface generation (C5). -/

/-- Claim-level lines of one object-type field: the field itself, plus the
raw-identifier companion when the annotation is not a reserved name. -/
def objFieldLines (f : GQLSchemaField) : List String :=
  if isReservedAnnotation f.type then [f.key ++ ": " ++ f.type]
  else [f.key ++ ": " ++ f.type, f.key ++ "ID: ID"]

theorem objFieldLines_ne_nil (f : GQLSchemaField) : objFieldLines f ≠ [] := by
  unfold objFieldLines
  split <;> simp

theorem renderObjField_eq (f : GQLSchemaField) :
    renderObjField f = joinSep "\n  " (objFieldLines f) := by
  unfold renderObjField objFieldLines
  split <;> simp [joinSep, String.append_assoc]

theorem joinSep_append (sep : String) (a b : List String) (ha : a ≠ []) (hb : b ≠ []) :
    joinSep sep (a ++ b) = joinSep sep a ++ sep ++ joinSep sep b := by
  induction a with
  | nil => exact absurd rfl ha
  | cons x xs ih =>
      cases xs with
      | nil =>
          cases b with
          | nil => exact absurd rfl hb
          | cons y ys => simp [joinSep]
      | cons x2 xs2 =>
          calc joinSep sep ((x :: x2 :: xs2) ++ b)
              = x ++ sep ++ joinSep sep ((x2 :: xs2) ++ b) := rfl
            _ = x ++ sep ++ (joinSep sep (x2 :: xs2) ++ sep ++ joinSep sep b) := by
                  rw [ih (by simp)]
            _ = joinSep sep (x :: x2 :: xs2) ++ sep ++ joinSep sep b := by
                  rw [show joinSep sep (x :: x2 :: xs2)
                        = x ++ sep ++ joinSep sep (x2 :: xs2) from rfl]
                  simp [String.append_assoc]

theorem flatten_ne_nil (ls : List (List String)) (h0 : ls ≠ [])
    (h : ∀ x ∈ ls, x ≠ []) : ls.flatten ≠ [] := by
  cases ls with
  | nil => exact absurd rfl h0
  | cons x xs =>
      have hx : x ≠ [] := h x (by simp)
      simp [List.flatten, List.append_eq_nil]
      intro hx2
      exact absurd hx2 hx

theorem joinSep_flatten (sep : String) (ls : List (List String))
    (h : ∀ x ∈ ls, x ≠ []) :
    joinSep sep (ls.map (joinSep sep)) = joinSep sep ls.flatten := by
  induction ls with
  | nil => rfl
  | cons x xs ih =>
      cases xs with
      | nil => simp [joinSep, List.flatten]
      | cons x2 xs2 =>
          have hx : x ≠ [] := h x (by simp)
          have hrest : ∀ y ∈ x2 :: xs2, y ≠ [] := fun y hy => h y (by simp [hy])
          have hflat : (x2 :: xs2).flatten ≠ [] :=
            flatten_ne_nil _ (by simp) hrest
          calc joinSep sep ((x :: x2 :: xs2).map (joinSep sep))
              = joinSep sep x ++ sep ++ joinSep sep ((x2 :: xs2).map (joinSep sep)) := rfl
            _ = joinSep sep x ++ sep ++ joinSep sep ((x2 :: xs2).flatten) := by
                  rw [ih hrest]
            _ = joinSep sep (x ++ (x2 :: xs2).flatten) :=
                  (joinSep_append sep x ((x2 :: xs2).flatten) hx hflat).symm
            _ = joinSep sep ((x :: x2 :: xs2).flatten) := by
                  rw [← List.flatten_cons]

/-- C5: the generated object type exposes one line per field plus the
raw-identifier companion for every non-reserved annotation, the input type
keeps every field but id with reference fields typed as plain ID, and
the operation names derive from the table name: the plural and singular
queries, and the batch, add, put, del mutations (checked on the Widget
instance of the spec). -/
theorem gql_surface_generation (name : String) (fields : List GQLSchemaField) :
    objectSchema name fields
      = "type " ++ name ++ " \x7b\n  " ++ joinSep "\n  " (fields.flatMap objFieldLines) ++ "\n\x7d" ∧
    inputSchema name fields
      = "input " ++ name ++ "Input \x7b\n  " ++
          joinSep "\n  " ((fields.filter (fun f => f.key ≠ "id")).map
            (fun f => f.key ++ ": " ++ (if isReservedAnnotation f.type then f.type else "ID")))
          ++ "\n\x7d" ∧
    queriesText "Widget" = "widgets(search: SearchOptions): [Widget]!  widget(id: ID!): Widget" ∧
    mutationsText "Widget"
      = "batchWidget(input: [WidgetBatchInput]!): [WidgetBatchReturn]!  addWidget(input: WidgetInput!): Widget!  putWidget(id: ID!, input: WidgetInput!): Widget!  delWidget(id: ID!): Void" ∧
    objectSchema "Widget" [⟨"id", "ID"⟩, ⟨"name", "String!"⟩, ⟨"owner", "User"⟩]
      = "type Widget \x7b\n  id: ID\n  name: String!\n  owner: User\n  ownerID: ID\n\x7d" ∧
    inputSchema "Widget" [⟨"id", "ID"⟩, ⟨"name", "String!"⟩, ⟨"owner", "User"⟩]
      = "input WidgetInput \x7b\n  name: String!\n  owner: ID\n\x7d" := by
  refine ⟨?_, ?_, by decide, by decide, by decide, by decide⟩
  · unfold objectSchema
    have hmap : fields.map renderObjField
        = (fields.map objFieldLines).map (joinSep "\n  ") := by
      simp [renderObjField_eq]
    rw [hmap, joinSep_flatten "\n  " (fields.map objFieldLines)
      (by intro x hx; obtain ⟨f, _, rfl⟩ := List.mem_map.mp hx; exact objFieldLines_ne_nil f)]
    have : fields.flatMap objFieldLines = (fields.map objFieldLines).flatten := by
      simp [List.flatMap]
    rw [this]
  · unfold inputSchema renderInputField
    rfl

/-! Batch semantics (C8). -/

theorem batchStep_ok (cols : Columns) (rows : List Row) (op : BatchOp)
    (h : op.type = "put" → encodeRec cols op.value ≠ []) :
    batchStep cols rows op = .ok (specStep cols rows op) := by
  unfold batchStep specStep
  by_cases hput : op.type = "put"
  · simp [hput, h hput]
  · by_cases hdel : op.type = "del" <;> simp [hput, hdel]

theorem batch_foldlM (cols : Columns) (ops : List BatchOp) :
    ∀ rows, (∀ op ∈ ops, op.type = "put" → encodeRec cols op.value ≠ []) →
      List.foldlM (batchStep cols) rows ops = .ok (List.foldl (specStep cols) rows ops) := by
  induction ops with
  | nil => intro rows _; rfl
  | cons op ops ih =>
      intro rows h
      rw [List.foldlM_cons, batchStep_ok cols rows op (h op (by simp))]
      calc (Except.ok (specStep cols rows op) >>=
              fun r => List.foldlM (batchStep cols) r ops : Except Err (List Row))
          = List.foldlM (batchStep cols) (specStep cols rows op) ops := rfl
        _ = .ok (List.foldl (specStep cols) (specStep cols rows op) ops) :=
            ih _ (fun o ho => h o (by simp [ho]))
        _ = .ok (List.foldl (specStep cols) rows (op :: ops)) := by rw [List.foldl_cons]

theorem specStep_skip (cols : Columns) (rows : List Row) (op : BatchOp)
    (h1 : op.type ≠ "put") (h2 : op.type ≠ "del") : specStep cols rows op = rows := by
  simp [specStep, h1, h2]

theorem foldl_specStep_filter (cols : Columns) (ops : List BatchOp) :
    ∀ rows, List.foldl (specStep cols) rows ops
      = List.foldl (specStep cols)
          rows (ops.filter (fun op => op.type = "put" || op.type = "del")) := by
  induction ops with
  | nil => intro rows; rfl
  | cons op ops ih =>
      intro rows
      by_cases hput : op.type = "put"
      · simp [List.foldl_cons, List.filter_cons, hput, ih]
      · by_cases hdel : op.type = "del"
        · simp [List.foldl_cons, List.filter_cons, hput, hdel, ih]
        · simp [List.foldl_cons, List.filter_cons, hput, hdel, ih,
            specStep_skip cols rows op hput hdel]

/-- C8: batch executes the put and del operations in the caller order as
one transaction, the effect of each operation visible to the later ones
(the left fold), and any operation of another kind is skipped without
failing the batch (the fold equals the fold over only the put and del
operations).  The hypothesis rules out puts whose encoded value is
empty, which fail at statement preparation - in that case the model
returns an error and the pre-batch rows stand, the rollback of the
claim-level all-or-nothing contract. -/
theorem batch_ordered_skip_unknown (cols : Columns) (rows : List Row) (ops : List BatchOp)
    (h : ∀ op ∈ ops, op.type = "put" → encodeRec cols op.value ≠ []) :
    batch cols rows ops = .ok (ops.foldl (specStep cols) rows) ∧
    ops.foldl (specStep cols) rows
      = (ops.filter (fun op => op.type = "put" || op.type = "del")).foldl
          (specStep cols) rows := by
  refine ⟨?_, foldl_specStep_filter cols ops rows⟩
  unfold batch
  by_cases he : ops = []
  · subst he; rfl
  · simp only [he, if_false]
    exact batch_foldlM cols ops rows h

/-- Columns of the C8 witness table. -/
def colsW : Columns := [("id", idColCreate), ("k", ⟨.Int, true, some "Int"⟩)]

/-- Rows of the C8 witness table. -/
def rowsW : List Row := [[("id", stext "a"), ("k", sint 1)], [("id", stext "b"), ("k", sint 2)]]

/-- C8 witness operations: a put, an operation of unknown kind, a del. -/
def opsW : List BatchOp :=
  [⟨"put", "a", [("k", vint 9)]⟩, ⟨"add", "zz", [("k", vint 5)]⟩, ⟨"del", "b", []⟩]

theorem batch_ordered_skip_unknown_witness :
    batch colsW rowsW opsW = .ok (opsW.foldl (specStep colsW) rowsW) ∧
    opsW.foldl (specStep colsW) rowsW
      = (opsW.filter (fun op => op.type = "put" || op.type = "del")).foldl
          (specStep colsW) rowsW :=
  batch_ordered_skip_unknown colsW rowsW opsW (by decide)

/-! Search sort handling (C9). -/

theorem filterMap_if (p : α → Bool) (g : α → β) (l : List α) :
    l.filterMap (fun t => if p t then some (g t) else none) = (l.filter p).map g := by
  induction l with
  | nil => rfl
  | cons x xs ih => by_cases h : p x <;> simp [h, ih]

/-- Claim-level sort step: the whitespace tokens of the sort string in
order, a minus prefix mapping to a DESC fragment, a plus prefix to an
ASC fragment, a bare identifier passing through, and every token that is
not an optionally signed bare identifier silently discarded; the clause
is appended only when some token is kept. -/
def specApplySort (stmt : String) (sort : Option String) : String :=
  match sort with
  | none => stmt
  | some s =>
    let kept := (splitWs s).filterMap (fun t => if sortTokOk t then some (mapTok t) else none)
    if kept = [] then stmt else stmt ++ " ORDER BY " ++ String.intercalate ", " kept

theorem applySort_eq_spec (stmt : String) (sort : Option String) :
    applySort stmt sort = specApplySort stmt sort := by
  unfold applySort specApplySort
  cases sort with
  | none => rfl
  | some s =>
      by_cases h : s = ""
      · subst h
        have h0 : splitWs "" = [] := by decide
        simp [h0, filterMap_if]
      · simp [h, filterMap_if]

/-- C9 amended: the search statement builder never raises an error for a
bad sort token; the ORDER BY clause it appends is the claim-level one,
built from the kept tokens in order with minus mapping to DESC and plus
to ASC, every ill-formed token silently discarded.  Stated for options
without a query filter, so the only statements involved are the sort,
limit and skip fragments. -/
theorem search_sort_clause_spec (name : String) (o : SearchOptions) (h : o.query = none) :
    searchStmt name o =
      .ok (applySkip (applyLimit
            (specApplySort ("SELECT " ++ projOf o.projection ++ " FROM \"" ++ name ++ "\"")
              o.sort,
             ([] : List SVal)) o.limit) o.limit o.skip) := by
  unfold searchStmt
  rw [h]
  simp [applySort_eq_spec]

/-- C9 witness options: a signed pair of tokens, a bare token, and a
rejected token, with limit and skip set. -/
def optsW9 : SearchOptions :=
  { sort := some "+a -b c $bad", limit := some 2, skip := some 1 }

theorem search_sort_clause_spec_witness :
    searchStmt "tbl" optsW9 =
      .ok (applySkip (applyLimit
            (specApplySort ("SELECT " ++ projOf optsW9.projection ++ " FROM \"" ++ "tbl" ++ "\"")
              optsW9.sort,
             ([] : List SVal)) optsW9.limit) optsW9.limit optsW9.skip) :=
  search_sort_clause_spec "tbl" optsW9 rfl

end TinyDeno
